import Mathlib

/-!
Shallow embedding of the scene-manager library (Scene, SceneTransition,
SceneManager) and proofs of its specified properties.

Modelling choices:
* Time and progress values are rationals (the source uses JS numbers; every
  constant appearing in the spec is exactly representable).
* Scene objects live on an explicit heap indexed by `SceneId`; the manager's
  `scenes` map stores ids, and JS reference equality (`===`) becomes id
  equality, so aliasing between `currentScene` and map entries is preserved.
* Lifecycle hook calls are recorded as events in a trace.  An awaited hook
  contributes an "invoked" and a "settled" event consecutively (the caller
  resumes only after it settles); a fire-and-forget call contributes only the
  "invoked" event.  Promise resolution of a pending transition-path switch is
  the `resolveSwitch` event, emitted by the transition's onComplete closure.
* Fallible operations return an `Except` flag next to the (unchanged) state.
-/

/-- Lifecycle states of a scene, from `types.ts`. -/
inductive SceneState where
  | inactive
  | entering
  | active
  | exiting
  | paused
deriving DecidableEq, Repr

/-- A scene object: `name` and `state` fields of class `Scene`/`KolownScene`
(the `data` bag plays no role in the verified properties). -/
structure Scene where
  name : String
  state : SceneState
deriving DecidableEq, Repr

/-- Heap addresses standing for JS object identity of scenes. -/
abbrev SceneId := Nat

/-- The heap of scene objects. -/
abbrev Heap := SceneId → Option Scene

/-- `scene.setState(st)` applied through the heap at address `i`. -/
def setStateH (h : Heap) (i : SceneId) (st : SceneState) : Heap :=
  fun j => if j = i then (h i).map (fun s => { s with state := st }) else h j

/-- Observable events of a run: lifecycle hook calls, state writes,
reassignment of `currentScene`, transition start, and resolution of the
pending `switchTo` promise on the transition path. -/
inductive Ev where
  | setState (sid : SceneId) (st : SceneState)
  | onExitInvoked (sid : SceneId)
  | onExitSettled (sid : SceneId)
  | onEnterInvoked (sid : SceneId)
  | onEnterSettled (sid : SceneId)
  | onUpdate (sid : SceneId) (dt : ℚ)
  | onPause (sid : SceneId)
  | onResume (sid : SceneId)
  | assignCurrent (sid : SceneId)
  | transitionStart
  | resolveSwitch
deriving DecidableEq, Repr

/-- `e1` occurs (at some position) strictly before `e2` in the trace. -/
def evBefore (tr : List Ev) (e1 e2 : Ev) : Prop :=
  ∃ i j, i < j ∧ tr.get? i = some e1 ∧ tr.get? j = some e2

/-- Options accepted by the `SceneTransition` constructor
(`SceneTransitionOptions` in `types.ts`; `onComplete` is modelled by the
"fired" flag returned from `update`/`complete`). -/
structure SceneTransitionOptionsM where
  duration : Option ℚ := none
  easing : Option (ℚ → ℚ) := none

/-- The `SceneTransition` class state: merged options plus `startTime` and
`isRunning`. -/
structure SceneTransition where
  duration : ℚ
  easing : ℚ → ℚ
  startTime : ℚ
  isRunning : Bool

/-- The `SceneTransition` constructor: merges `{duration: 1000, easing: t => t}`
with the caller's options. -/
def mkSceneTransition (opts : SceneTransitionOptionsM) : SceneTransition :=
  { duration := opts.duration.getD 1000
    easing := opts.easing.getD (fun t => t)
    startTime := 0
    isRunning := false }

/-- `transition.start()` at wall-clock time `now`. -/
def SceneTransition.start (t : SceneTransition) (now : ℚ) : SceneTransition :=
  { t with startTime := now, isRunning := true }

/-- `transition.complete()`: stops the transition and fires `onComplete`.
Returns the new state and `true` for the callback invocation. -/
def SceneTransition.complete (t : SceneTransition) : SceneTransition × Bool :=
  ({ t with isRunning := false }, true)

/-- `transition.update()` at wall-clock time `now`.  Returns the eased
progress, the new transition state, and whether `complete()` fired during the
call.  Mirrors the source: progress is `min(elapsed / (duration || 1000), 1)`,
easing is applied to it, and `complete()` runs exactly when the raw progress
has reached 1, before the eased value is returned. -/
def SceneTransition.update (t : SceneTransition) (now : ℚ) :
    ℚ × SceneTransition × Bool :=
  if t.isRunning = false then (1, t, false)
  else
    let elapsed := now - t.startTime
    let progress := min (elapsed / (if t.duration = 0 then 1000 else t.duration)) 1
    let easedProgress := t.easing progress
    if progress ≥ 1 then
      let c := t.complete
      (easedProgress, c.1, c.2)
    else (easedProgress, t, false)

/-- `transition.isActive()`. -/
def SceneTransition.isActive (t : SceneTransition) : Bool :=
  t.isRunning

/-- Static easing preset `easeIn`. -/
def SceneTransition.easeIn (t : ℚ) : ℚ := t * t

/-- Static easing preset `easeOut`. -/
def SceneTransition.easeOut (t : ℚ) : ℚ := t * (2 - t)

/-- Static easing preset `easeInOut`. -/
def SceneTransition.easeInOut (t : ℚ) : ℚ :=
  if t < 1/2 then 2 * t * t else -1 + (4 - 2 * t) * t

/-- Manager options after the constructor's defaulting (`autoUpdate` only
drives the optional self-running loop, which is outside the modelled core). -/
structure SceneManagerOptionsM where
  enableTransitions : Bool := true
  defaultTransitionDuration : ℚ := 1000

/-- The `SceneManager` mutable state. -/
structure SceneManager where
  scenes : String → Option SceneId
  heap : Heap
  currentScene : Option SceneId
  previousScene : Option SceneId
  activeTransition : Option SceneTransition
  lastUpdateTime : ℚ
  options : SceneManagerOptionsM

/-- `manager.getCurrentScene()`. -/
def SceneManager.getCurrentScene (m : SceneManager) : Option SceneId :=
  m.currentScene

/-- `manager.getPreviousScene()`. -/
def SceneManager.getPreviousScene (m : SceneManager) : Option SceneId :=
  m.previousScene

/-- `manager.hasScene(name)`. -/
def SceneManager.hasScene (m : SceneManager) (sceneName : String) : Bool :=
  (m.scenes sceneName).isSome

/-- `manager.addScene(scene)`: keys the map by the scene's `name`. -/
def SceneManager.addScene (m : SceneManager) (sid : SceneId) : SceneManager :=
  match m.heap sid with
  | some s => { m with scenes := fun x => if x = s.name then some sid else m.scenes x }
  | none => m

/-- `manager.removeScene(name)`: clears `currentScene` when the stored scene
is (by reference) the current one, then deletes the map entry.  No lifecycle
hook runs, hence the empty trace. -/
def SceneManager.removeScene (m : SceneManager) (sceneName : String) :
    SceneManager × List Ev :=
  let scene := m.scenes sceneName
  let m1 := if scene.isSome ∧ scene = m.currentScene
    then { m with currentScene := none } else m
  ({ m1 with scenes := fun x => if x = sceneName then none else m1.scenes x }, [])

/-- The private `directSwitchToScene`: awaited, fully sequenced switch. -/
def directSwitchToScene (m : SceneManager) (newSid : SceneId) :
    SceneManager × List Ev :=
  let step1 : SceneManager × List Ev :=
    match m.currentScene with
    | some cur =>
        ({ m with heap := setStateH (setStateH m.heap cur .exiting) cur .inactive },
         [Ev.setState cur .exiting, Ev.onExitInvoked cur, Ev.onExitSettled cur,
          Ev.setState cur .inactive])
    | none => (m, [])
  let m1 := step1.1
  ({ m1 with
      currentScene := some newSid
      heap := setStateH (setStateH m1.heap newSid .entering) newSid .active },
   step1.2 ++
     [Ev.assignCurrent newSid, Ev.setState newSid .entering,
      Ev.onEnterInvoked newSid, Ev.onEnterSettled newSid,
      Ev.setState newSid .active])

/-- The private `transitionToScene`: fire-and-forget hooks around a fresh
transition; the returned promise is pending (no `resolveSwitch` event) until
the transition's `onComplete` runs inside a later `update`. -/
def transitionToScene (m : SceneManager) (newSid : SceneId)
    (transitionOptions : Option SceneTransitionOptionsM) (now : ℚ) :
    SceneManager × List Ev :=
  let mergedDuration :=
    (transitionOptions.bind (·.duration)).getD m.options.defaultTransitionDuration
  let t0 := mkSceneTransition
    { duration := some mergedDuration
      easing := transitionOptions.bind (·.easing) }
  let step1 : SceneManager × List Ev :=
    match m.currentScene with
    | some cur =>
        ({ m with heap := setStateH m.heap cur .exiting, activeTransition := some t0 },
         [Ev.setState cur .exiting, Ev.onExitInvoked cur])
    | none => ({ m with activeTransition := some t0 }, [])
  let m1 := step1.1
  ({ m1 with
      heap := setStateH m1.heap newSid .entering
      currentScene := some newSid
      activeTransition := some (t0.start now) },
   step1.2 ++
     [Ev.setState newSid .entering, Ev.onEnterInvoked newSid,
      Ev.assignCurrent newSid, Ev.transitionStart])

/-- `manager.switchTo(name, transitionOptions?)`.  Returns the rejection or
resolution flag, the manager state when the synchronous part of the call has
run, and the trace of events it produced. -/
def SceneManager.switchTo (m : SceneManager) (sceneName : String)
    (transitionOptions : Option SceneTransitionOptionsM) (now : ℚ) :
    Except String Unit × SceneManager × List Ev :=
  match m.scenes sceneName with
  | none => (.error ("Scene \"" ++ sceneName ++ "\" not found"), m, [])
  | some newSid =>
    if m.currentScene = some newSid then (.ok (), m, [])
    else
      let m1 := { m with previousScene := m.currentScene }
      if m.options.enableTransitions &&
          (m.currentScene.isSome || transitionOptions.isSome) then
        let r := transitionToScene m1 newSid transitionOptions now
        (.ok (), r.1, r.2)
      else
        let r := directSwitchToScene m1 newSid
        (.ok (), r.1, r.2)

/-- `currentScene.isActive()` read through the heap. -/
def sceneIsActive (m : SceneManager) (sid : SceneId) : Bool :=
  match m.heap sid with
  | some s => s.state = .active
  | none => false

/-- The transition-advancing first half of `manager.update()`: advances the
active transition (its `onComplete` closure clears `activeTransition` and
resolves the pending switch), then finalizes the scene states once the
reported progress reaches 1. -/
def transitionPhase (m : SceneManager) (now : ℚ) : SceneManager × List Ev :=
  match m.activeTransition with
  | none => (m, [])
  | some tr =>
    let u := tr.update now
    let progress := u.1
    let m1 := if u.2.2 then { m with activeTransition := none }
      else { m with activeTransition := some u.2.1 }
    let ev1 : List Ev := if u.2.2 then [Ev.resolveSwitch] else []
    if progress ≥ 1 then
      match m1.currentScene with
      | some cur =>
        let h1 := setStateH m1.heap cur .active
        match m1.previousScene with
        | some prev =>
            ({ m1 with heap := setStateH h1 prev .inactive },
             ev1 ++ [Ev.setState cur .active, Ev.setState prev .inactive])
        | none => ({ m1 with heap := h1 }, ev1 ++ [Ev.setState cur .active])
      | none => (m1, ev1)
    else (m1, ev1)

/-- `manager.update(deltaTime?)` at wall-clock time `now`: computes the
effective delta, advances the transition, then forwards the tick to the
current scene iff it is active. -/
def SceneManager.update (m : SceneManager) (deltaTime : Option ℚ) (now : ℚ) :
    SceneManager × List Ev :=
  let dt := deltaTime.getD (now - m.lastUpdateTime)
  let p := transitionPhase { m with lastUpdateTime := now } now
  let m1 := p.1
  match m1.currentScene with
  | some cur =>
    if sceneIsActive m1 cur then (m1, p.2 ++ [Ev.onUpdate cur dt])
    else (m1, p.2)
  | none => (m1, p.2)

/-- `manager.pauseCurrentScene()`. -/
def SceneManager.pauseCurrentScene (m : SceneManager) : SceneManager × List Ev :=
  match m.currentScene with
  | some cur =>
    if sceneIsActive m cur then
      ({ m with heap := setStateH m.heap cur .paused },
       [Ev.setState cur .paused, Ev.onPause cur])
    else (m, [])
  | none => (m, [])

/-- `manager.resumeCurrentScene()`. -/
def SceneManager.resumeCurrentScene (m : SceneManager) : SceneManager × List Ev :=
  match m.currentScene with
  | some cur =>
    if (match m.heap cur with
        | some s => s.state = SceneState.paused
        | none => false : Bool) then
      ({ m with heap := setStateH m.heap cur .active },
       [Ev.setState cur .active, Ev.onResume cur])
    else (m, [])
  | none => (m, [])

/-! ## Example inputs used by witnesses -/

/-- A two-scene example heap: id 0 holds scene "A" (active), id 1 holds
scene "B" (inactive). -/
def exHeap : Heap := fun j =>
  if j = 0 then some { name := "A", state := .active }
  else if j = 1 then some { name := "B", state := .inactive } else none

/-- Example manager over `exHeap` with transitions disabled and "A" current. -/
def exDirectMgr : SceneManager :=
  { scenes := fun n => if n = "A" then some 0 else if n = "B" then some 1 else none
    heap := exHeap
    currentScene := some 0
    previousScene := none
    activeTransition := none
    lastUpdateTime := 0
    options := { enableTransitions := false, defaultTransitionDuration := 1000 } }

/-- The same example manager with transitions enabled. -/
def exTransMgr : SceneManager :=
  { exDirectMgr with
      options := { enableTransitions := true, defaultTransitionDuration := 1000 } }

/-- The transitions-enabled example manager with no current scene. -/
def exNoCurMgr : SceneManager :=
  { exTransMgr with currentScene := none }

/-- A started linear transition with duration 1000 begun at time 0. -/
def exTransition : SceneTransition :=
  { duration := 1000, easing := fun t => t, startTime := 0, isRunning := true }

/-! ## C8: easing presets -/

/-- C8: the static easing presets compute `easeIn(t) = t²`,
`easeOut(t) = t·(2−t)`, `easeInOut(t) = 2t²` for `t < 0.5` and
`−1+(4−2t)·t` otherwise; they take the specified values at
0, 1, 0.5, 0.25 and 0.75, and each maps 0 to 0 and 1 to 1. -/
theorem easing_presets_spec :
    (∀ t : ℚ, SceneTransition.easeIn t = t * t) ∧
    (∀ t : ℚ, SceneTransition.easeOut t = t * (2 - t)) ∧
    (∀ t : ℚ, SceneTransition.easeInOut t =
      if t < 1/2 then 2 * t * t else -1 + (4 - 2 * t) * t) ∧
    SceneTransition.easeIn 0 = 0 ∧ SceneTransition.easeIn 1 = 1 ∧
    SceneTransition.easeIn (1/2) = 1/4 ∧
    SceneTransition.easeOut 0 = 0 ∧ SceneTransition.easeOut 1 = 1 ∧
    SceneTransition.easeOut (1/2) = 3/4 ∧
    SceneTransition.easeInOut 0 = 0 ∧ SceneTransition.easeInOut 1 = 1 ∧
    SceneTransition.easeInOut (1/4) = 1/8 ∧
    SceneTransition.easeInOut (3/4) = 7/8 := by
  refine ⟨fun t => rfl, fun t => rfl, fun t => rfl, ?_⟩
  norm_num [SceneTransition.easeIn, SceneTransition.easeOut, SceneTransition.easeInOut]

/-! ## C3: unknown scene name -/

/-- C3: switching to a name absent from the scenes map rejects with the
exact message `Scene "<name>" not found`, leaves the whole manager state
unchanged, and invokes no scene hook. -/
theorem switchTo_unknown_rejects (m : SceneManager) (sceneName : String)
    (topts : Option SceneTransitionOptionsM) (now : ℚ)
    (h : m.scenes sceneName = none) :
    m.switchTo sceneName topts now =
      (.error ("Scene \"" ++ sceneName ++ "\" not found"), m, []) := by
  simp [SceneManager.switchTo, h]

/-- Witness for C3 on a concrete manager lacking scene "C". -/
theorem switchTo_unknown_rejects_witness :
    exDirectMgr.switchTo "C" none 0 =
      (.error ("Scene \"" ++ "C" ++ "\" not found"), exDirectMgr, []) :=
  switchTo_unknown_rejects exDirectMgr "C" none 0 rfl

/-! ## C4: switching to the current scene -/

/-- C4: switching to the scene that is already current is a complete no-op:
the call resolves, no hook runs, no transition is created, and the manager
(including `previousScene`) and every scene state are unchanged. -/
theorem switchTo_current_noop (m : SceneManager) (sceneName : String)
    (sid : SceneId) (topts : Option SceneTransitionOptionsM) (now : ℚ)
    (h1 : m.scenes sceneName = some sid) (h2 : m.currentScene = some sid) :
    m.switchTo sceneName topts now = (.ok (), m, []) := by
  simp [SceneManager.switchTo, h1, h2]

/-- Witness for C4: switching to "A" while "A" is current. -/
theorem switchTo_current_noop_witness :
    exDirectMgr.switchTo "A" none 0 = (.ok (), exDirectMgr, []) :=
  switchTo_current_noop exDirectMgr "A" 0 none 0 rfl rfl

/-! ## C9: removeScene -/

/-- C9: `removeScene(name)` deletes the map entry (`hasScene` is false
afterwards) and invokes no lifecycle hook; when the stored scene is the
current one, `getCurrentScene()` becomes none. -/
theorem removeScene_spec (m : SceneManager) (sceneName : String) :
    (m.removeScene sceneName).1.hasScene sceneName = false ∧
    (m.removeScene sceneName).2 = [] ∧
    (∀ sid, m.scenes sceneName = some sid → m.currentScene = some sid →
      (m.removeScene sceneName).1.getCurrentScene = none) := by
  refine ⟨?_, rfl, ?_⟩
  · simp [SceneManager.removeScene, SceneManager.hasScene]
  · intro sid h1 h2
    simp [SceneManager.removeScene, SceneManager.getCurrentScene, h1, h2]

/-- Witness for C9: removing the current scene "A". -/
theorem removeScene_spec_witness :
    (exDirectMgr.removeScene "A").1.hasScene "A" = false ∧
    (exDirectMgr.removeScene "A").1.getCurrentScene = none :=
  ⟨(removeScene_spec exDirectMgr "A").1,
   (removeScene_spec exDirectMgr "A").2.2 0 rfl rfl⟩

/-! ## C5: SceneTransition.update semantics -/

/-- C5: `update()` returns 1 when the transition is not running; otherwise it
returns `easing(min(elapsed/duration, 1))` for `elapsed = now − startTime`,
and it runs `complete()` — stopping the transition and firing `onComplete` —
exactly when the raw progress `min(elapsed/duration, 1)` has reached 1,
before returning the eased value. -/
theorem sceneTransition_update_spec (t : SceneTransition) (now : ℚ)
    (hd : t.duration ≠ 0) :
    (t.isRunning = false → t.update now = (1, t, false)) ∧
    (t.isRunning = true →
      t.update now =
        (t.easing (min ((now - t.startTime) / t.duration) 1),
         if 1 ≤ min ((now - t.startTime) / t.duration) 1
           then ({ t with isRunning := false }, true)
           else (t, false))) := by
  constructor
  · intro h
    simp [SceneTransition.update, h]
  · intro h
    simp only [SceneTransition.update, h, Bool.true_eq_false, if_false, hd, if_neg,
      ge_iff_le, SceneTransition.complete]
    split <;> rfl

/-- Witness for C5 at a concrete running transition queried past its
duration: the call returns 1, stops the transition, and fires `onComplete`. -/
theorem sceneTransition_update_spec_witness :
    exTransition.update 1500 =
      (1, { exTransition with isRunning := false }, true) := by
  have h := (sceneTransition_update_spec exTransition 1500 (by norm_num [exTransition])).2 rfl
  rw [h]
  norm_num [exTransition, min_def]

/-! ## C10: zero duration falls back to 1000 -/

/-- C10: a transition constructed with duration 0 (falsy in the source, so
`duration || 1000` evaluates to 1000 inside `update()`) computes its raw
progress as `elapsed/1000` and behaves exactly like a transition with the
default duration 1000: same eased return value, same completion firing, same
running flag — in particular it does not complete instantly on an update
before 1000 time units have elapsed. -/
theorem zero_duration_default_fallback (e : ℚ → ℚ) (t0 now : ℚ) :
    ((mkSceneTransition { duration := some 0, easing := some e }).start t0).update now =
      (fun u => (u.1, { u.2.1 with duration := 0 }, u.2.2))
        (((mkSceneTransition { duration := some 1000, easing := some e }).start t0).update now) ∧
    (((mkSceneTransition { duration := some 0, easing := some e }).start t0).update now).1 =
      e (min ((now - t0) / 1000) 1) ∧
    (now - t0 < 1000 →
      (((mkSceneTransition { duration := some 0, easing := some e }).start t0).update now).2.2
        = false) := by
  refine ⟨?_, ?_, ?_⟩
  · simp only [mkSceneTransition, SceneTransition.start, SceneTransition.update,
      SceneTransition.complete]
    norm_num
    split <;> rfl
  · simp only [mkSceneTransition, SceneTransition.start, SceneTransition.update]
    norm_num
    split <;> rfl
  · intro hlt
    have hraw : (now - t0) / 1000 < 1 := by
      rw [div_lt_one (by norm_num)]
      linarith
    simp only [mkSceneTransition, SceneTransition.start, SceneTransition.update,
      SceneTransition.complete]
    norm_num
    rw [if_neg (not_le.mpr hraw)]

/-- Witness for C10: a zero-duration transition started at 0 and updated at
500 has not completed. -/
theorem zero_duration_default_fallback_witness :
    (((mkSceneTransition { duration := some 0, easing := some (fun t => t) }).start 0).update 500).2.2
      = false :=
  (zero_duration_default_fallback (fun t => t) 0 500).2.2 (by norm_num)

/-! ## C6: completion fires exactly once -/

/-- Folds a sequence of `update()` calls over a transition, returning the
final transition state and the number of `onComplete` firings. -/
def updatesRun (t : SceneTransition) : List ℚ → SceneTransition × ℕ
  | [] => (t, 0)
  | n :: rest =>
    let u := t.update n
    let r := updatesRun u.2.1 rest
    (r.1, (if u.2.2 then 1 else 0) + r.2)

/-- A stopped transition reports 1 from `update()` and never fires. -/
lemma update_not_running (t : SceneTransition) (h : t.isRunning = false)
    (now : ℚ) : t.update now = (1, t, false) := by
  simp [SceneTransition.update, h]

/-- A stopped transition fires no completion over any call sequence. -/
lemma updatesRun_not_running (t : SceneTransition) (h : t.isRunning = false) :
    ∀ ts : List ℚ, updatesRun t ts = (t, 0) := by
  intro ts
  induction ts with
  | nil => rfl
  | cons n rest ih =>
      simp [updatesRun, update_not_running t h, ih]

/-- A running linear transition updated at or past its duration returns
exactly 1, stops, and fires its completion. -/
lemma update_complete_of_elapsed (t : SceneTransition) (now : ℚ)
    (hrun : t.isRunning = true) (heas : t.easing = fun x => x)
    (hdpos : 0 < t.duration) (h : t.duration ≤ now - t.startTime) :
    t.update now = (1, { t with isRunning := false }, true) := by
  have hd : t.duration ≠ 0 := ne_of_gt hdpos
  have hone : 1 ≤ (now - t.startTime) / t.duration :=
    (one_le_div hdpos).mpr h
  have hmin : min ((now - t.startTime) / t.duration) 1 = 1 :=
    min_eq_right hone
  have := (sceneTransition_update_spec t now hd).2 hrun
  rw [this, hmin, if_pos le_rfl, heas]

/-- A running transition updated strictly before its duration elapses keeps
running and does not fire. -/
lemma update_incomplete_of_elapsed (t : SceneTransition) (now : ℚ)
    (hrun : t.isRunning = true) (hdpos : 0 < t.duration)
    (h : now - t.startTime < t.duration) :
    (t.update now).2 = (t, false) := by
  have hd : t.duration ≠ 0 := ne_of_gt hdpos
  have hraw : (now - t.startTime) / t.duration < 1 :=
    (div_lt_one hdpos).mpr h
  have hmin : ¬ 1 ≤ min ((now - t.startTime) / t.duration) 1 := by
    intro hc
    exact absurd (lt_of_le_of_lt hc (lt_of_le_of_lt (min_le_left _ _) hraw))
      (lt_irrefl 1)
  have := (sceneTransition_update_spec t now hd).2 hrun
  rw [this, if_neg hmin]

/-- C6: for a started transition with linear easing and positive duration,
any `update()` at elapsed time ≥ duration returns exactly 1, stops the
transition (`isActive()` false), any later `update()` still returns 1 without
firing again, and over any sequence of `update()` calls containing at least
one call at elapsed time ≥ duration, `onComplete` fires exactly once. -/
theorem transition_completion_fires_once (t : SceneTransition)
    (hrun : t.isRunning = true) (heas : t.easing = fun x => x)
    (hdpos : 0 < t.duration) :
    (∀ now, t.duration ≤ now - t.startTime →
      t.update now = (1, { t with isRunning := false }, true) ∧
      ((t.update now).2.1).isActive = false) ∧
    (∀ now now', t.duration ≤ now - t.startTime →
      ((t.update now).2.1).update now' = (1, (t.update now).2.1, false)) ∧
    (∀ ts : List ℚ, (∃ x ∈ ts, t.duration ≤ x - t.startTime) →
      (updatesRun t ts).2 = 1) := by
  refine ⟨?_, ?_, ?_⟩
  · intro now h
    have hc := update_complete_of_elapsed t now hrun heas hdpos h
    refine ⟨hc, ?_⟩
    rw [hc]
    rfl
  · intro now now' h
    have hc := update_complete_of_elapsed t now hrun heas hdpos h
    rw [hc]
    exact update_not_running _ rfl now'
  · intro ts hex
    induction ts with
    | nil => exact absurd hex (by simp)
    | cons x rest ih =>
        by_cases hx : t.duration ≤ x - t.startTime
        · have hc := update_complete_of_elapsed t x hrun heas hdpos hx
          have h0 : ({ t with isRunning := false } : SceneTransition).isRunning = false := rfl
          simp [updatesRun, hc, updatesRun_not_running { t with isRunning := false } h0 rest]
        · have hlt : x - t.startTime < t.duration := lt_of_not_le hx
          have hi := update_incomplete_of_elapsed t x hrun hdpos hlt
          rcases hex with ⟨y, hy, hyd⟩
          rcases List.mem_cons.mp hy with h1 | h2
          · exact absurd (h1 ▸ hyd) hx
          · simp [updatesRun, hi, ih ⟨y, h2, hyd⟩]

/-- Witness for C6: the example linear transition driven at times 500, 1500
and 2000 fires its completion exactly once. -/
theorem transition_completion_fires_once_witness :
    (updatesRun exTransition [500, 1500, 2000]).2 = 1 :=
  (transition_completion_fires_once exTransition rfl rfl (by norm_num [exTransition])).2.2
    [500, 1500, 2000] ⟨1500, by norm_num, by norm_num [exTransition]⟩

/-! ## C1: direct-switch sequencing -/

/-- C1: with transitions disabled, switching from the current scene A to a
registered, distinct scene B resolves, runs A's `onExit` to completion before
B's `onEnter` begins, and ends with A inactive, B active, and
`getCurrentScene()` returning B. -/
theorem direct_switch_sequencing (m : SceneManager) (a b : SceneId)
    (sceneName : String) (topts : Option SceneTransitionOptionsM) (now : ℚ)
    (hT : m.options.enableTransitions = false)
    (hB : m.scenes sceneName = some b)
    (hcur : m.currentScene = some a)
    (hab : a ≠ b)
    (hha : (m.heap a).isSome) (hhb : (m.heap b).isSome) :
    (m.switchTo sceneName topts now).1 = .ok () ∧
    evBefore (m.switchTo sceneName topts now).2.2
      (.onExitSettled a) (.onEnterInvoked b) ∧
    ((m.switchTo sceneName topts now).2.1.heap a).map Scene.state
      = some .inactive ∧
    ((m.switchTo sceneName topts now).2.1.heap b).map Scene.state
      = some .active ∧
    (m.switchTo sceneName topts now).2.1.getCurrentScene = some b := by
  obtain ⟨sA, hA⟩ := Option.isSome_iff_exists.mp hha
  obtain ⟨sB, hB2⟩ := Option.isSome_iff_exists.mp hhb
  have hab' : b ≠ a := Ne.symm hab
  have hsw : m.switchTo sceneName topts now =
      (.ok (), (directSwitchToScene { m with previousScene := m.currentScene } b).1,
       (directSwitchToScene { m with previousScene := m.currentScene } b).2) := by
    simp [SceneManager.switchTo, hB, hcur, hab, hT]
  refine ⟨by rw [hsw], ?_, ?_, ?_, ?_⟩
  · have htr : (m.switchTo sceneName topts now).2.2 =
        [Ev.setState a .exiting, Ev.onExitInvoked a, Ev.onExitSettled a,
         Ev.setState a .inactive, Ev.assignCurrent b, Ev.setState b .entering,
         Ev.onEnterInvoked b, Ev.onEnterSettled b, Ev.setState b .active] := by
      rw [hsw]
      simp [directSwitchToScene, hcur]
    rw [htr]
    exact ⟨2, 6, by norm_num, rfl, rfl⟩
  · rw [hsw]
    simp [directSwitchToScene, hcur, setStateH, hab, hab', hA]
  · rw [hsw]
    simp [directSwitchToScene, hcur, setStateH, hab, hab', hB2]
  · rw [hsw]
    simp [directSwitchToScene, SceneManager.getCurrentScene, hcur]

/-- Witness for C1 on the concrete two-scene manager with transitions
disabled: switching from "A" (id 0) to "B" (id 1). -/
theorem direct_switch_sequencing_witness :
    (exDirectMgr.switchTo "B" none 0).1 = .ok () ∧
    evBefore (exDirectMgr.switchTo "B" none 0).2.2
      (.onExitSettled 0) (.onEnterInvoked 1) ∧
    ((exDirectMgr.switchTo "B" none 0).2.1.heap 0).map Scene.state
      = some .inactive ∧
    ((exDirectMgr.switchTo "B" none 0).2.1.heap 1).map Scene.state
      = some .active ∧
    (exDirectMgr.switchTo "B" none 0).2.1.getCurrentScene = some 1 :=
  direct_switch_sequencing exDirectMgr 0 1 "B" none 0 rfl rfl rfl
    (by decide) rfl rfl

/-! ## C2: transition-path ordering -/

/-- When the active transition's `update` fires its completion, the enclosing
`manager.update` emits the pending switch's resolution and clears
`activeTransition` (the transition's `onComplete` closure). -/
lemma transitionPhase_fired (M : SceneManager) (tr : SceneTransition)
    (tnow : ℚ)
    (hat : M.activeTransition = some tr)
    (hf : (tr.update tnow).2.2 = true) :
    (transitionPhase M tnow).1.activeTransition = none ∧
    Ev.resolveSwitch ∈ (transitionPhase M tnow).2 := by
  unfold transitionPhase
  rw [hat]
  simp only [hf, if_true]
  split <;> (try split) <;> (try split) <;> simp

/-- Lifting `transitionPhase_fired` through the full `manager.update`. -/
lemma update_resolves_of_fired (M : SceneManager) (tr : SceneTransition)
    (d : Option ℚ) (tnow : ℚ)
    (hat : M.activeTransition = some tr)
    (hf : (tr.update tnow).2.2 = true) :
    Ev.resolveSwitch ∈ (M.update d tnow).2 ∧
    (M.update d tnow).1.activeTransition = none := by
  have hp := transitionPhase_fired { M with lastUpdateTime := tnow } tr tnow hat hf
  rcases hp with ⟨h1, h2⟩
  unfold SceneManager.update
  rcases hcs : (transitionPhase { M with lastUpdateTime := tnow } tnow).1.currentScene
    with _ | cur
  · simp only [hcs]
    exact ⟨h2, h1⟩
  · simp only [hcs]
    by_cases ha : sceneIsActive (transitionPhase { M with lastUpdateTime := tnow } tnow).1 cur
      = true
    · rw [if_pos ha]
      exact ⟨List.mem_append_left _ h2, h1⟩
    · rw [if_neg ha]
      exact ⟨h2, h1⟩

/-- C2: on every `switchTo` that takes the transition path (transitions
enabled and either a current scene exists or explicit transition options are
supplied), the old scene — if any — is set to `exiting` and its `onExit`
invoked without awaiting, then the new scene is set to `entering` and its
`onEnter` invoked without awaiting, then `currentScene` is reassigned — all
before the transition's `start()` — and the switch promise resolves only
when the transition completes (no resolution and no hook settlement occurs
in the synchronous trace; the resolution is emitted by the `update` call
during which the transition fires its completion, which also clears
`activeTransition`). -/
theorem transition_path_ordering (m : SceneManager) (b : SceneId)
    (sceneName : String) (topts : Option SceneTransitionOptionsM)
    (d : Option ℚ) (now tnow : ℚ)
    (hT : m.options.enableTransitions = true)
    (hB : m.scenes sceneName = some b)
    (hpath : m.currentScene.isSome = true ∨ topts.isSome = true)
    (hne : m.currentScene ≠ some b) :
    (m.switchTo sceneName topts now).1 = .ok () ∧
    (m.switchTo sceneName topts now).2.2 =
      (match m.currentScene with
        | some a => [Ev.setState a .exiting, Ev.onExitInvoked a]
        | none => []) ++
      [Ev.setState b .entering, Ev.onEnterInvoked b, Ev.assignCurrent b,
       Ev.transitionStart] ∧
    (m.switchTo sceneName topts now).2.1.currentScene = some b ∧
    Ev.resolveSwitch ∉ (m.switchTo sceneName topts now).2.2 ∧
    (∀ sid, Ev.onExitSettled sid ∉ (m.switchTo sceneName topts now).2.2) ∧
    (∀ sid, Ev.onEnterSettled sid ∉ (m.switchTo sceneName topts now).2.2) ∧
    (∃ tr, (m.switchTo sceneName topts now).2.1.activeTransition = some tr ∧
      tr.isRunning = true ∧
      ((tr.update tnow).2.2 = true →
        Ev.resolveSwitch ∈ ((m.switchTo sceneName topts now).2.1.update d tnow).2 ∧
        ((m.switchTo sceneName topts now).2.1.update d tnow).1.activeTransition
          = none)) := by
  rcases hcs : m.currentScene with _ | a
  · have htop : topts.isSome = true := by
      rcases hpath with h | h
      · rw [hcs] at h
        exact absurd h (by simp)
      · exact h
    have hsw : m.switchTo sceneName topts now =
        (.ok (),
         (transitionToScene { m with previousScene := m.currentScene } b topts now).1,
         (transitionToScene { m with previousScene := m.currentScene } b topts now).2) := by
      simp [SceneManager.switchTo, hB, hcs, hT, htop]
    have hat : (m.switchTo sceneName topts now).2.1.activeTransition =
        some ((mkSceneTransition
          { duration := some
              ((topts.bind (·.duration)).getD m.options.defaultTransitionDuration)
            easing := topts.bind (·.easing) }).start now) := by
      rw [hsw]
      simp [transitionToScene, hcs]
    refine ⟨by rw [hsw], ?_, ?_, ?_, ?_, ?_, ?_⟩
    · rw [hsw, hcs]
      simp [transitionToScene, hcs]
    · rw [hsw]
      simp [transitionToScene, hcs]
    · rw [hsw]
      simp [transitionToScene, hcs]
    · intro sid
      rw [hsw]
      simp [transitionToScene, hcs]
    · intro sid
      rw [hsw]
      simp [transitionToScene, hcs]
    · exact ⟨_, hat, rfl,
        fun hf => update_resolves_of_fired _ _ d tnow hat hf⟩
  · have hab : ¬ (a = b) := by
      intro h
      exact hne (by rw [hcs, h])
    have hsw : m.switchTo sceneName topts now =
        (.ok (),
         (transitionToScene { m with previousScene := m.currentScene } b topts now).1,
         (transitionToScene { m with previousScene := m.currentScene } b topts now).2) := by
      simp [SceneManager.switchTo, hB, hcs, hab, hT]
    have hat : (m.switchTo sceneName topts now).2.1.activeTransition =
        some ((mkSceneTransition
          { duration := some
              ((topts.bind (·.duration)).getD m.options.defaultTransitionDuration)
            easing := topts.bind (·.easing) }).start now) := by
      rw [hsw]
      simp [transitionToScene, hcs]
    refine ⟨by rw [hsw], ?_, ?_, ?_, ?_, ?_, ?_⟩
    · rw [hsw, hcs]
      simp [transitionToScene, hcs]
    · rw [hsw]
      simp [transitionToScene, hcs]
    · rw [hsw]
      simp [transitionToScene, hcs]
    · intro sid
      rw [hsw]
      simp [transitionToScene, hcs]
    · intro sid
      rw [hsw]
      simp [transitionToScene, hcs]
    · exact ⟨_, hat, rfl,
        fun hf => update_resolves_of_fired _ _ d tnow hat hf⟩

/-- Witness for C2 on two concrete transition-path switches: one from a
current scene "A" (id 0) to "B" (id 1), and one with no current scene but
explicit transition options. -/
theorem transition_path_ordering_witness :
    ((exTransMgr.switchTo "B" none 0).1 = .ok () ∧
     (exTransMgr.switchTo "B" none 0).2.2 =
       [Ev.setState 0 .exiting, Ev.onExitInvoked 0, Ev.setState 1 .entering,
        Ev.onEnterInvoked 1, Ev.assignCurrent 1, Ev.transitionStart] ∧
     Ev.resolveSwitch ∉ (exTransMgr.switchTo "B" none 0).2.2) ∧
    ((exNoCurMgr.switchTo "B" (some { duration := some 500 }) 0).1 = .ok () ∧
     (exNoCurMgr.switchTo "B" (some { duration := some 500 }) 0).2.2 =
       [Ev.setState 1 .entering, Ev.onEnterInvoked 1, Ev.assignCurrent 1,
        Ev.transitionStart]) := by
  have h := transition_path_ordering exTransMgr 1 "B" none (some 16) 0 1000
    rfl rfl (Or.inl rfl) (by decide)
  have h2 := transition_path_ordering exNoCurMgr 1 "B"
    (some { duration := some 500 }) (some 16) 0 1000
    rfl rfl (Or.inr rfl) (by decide)
  refine ⟨⟨h.1, ?_, h.2.2.2.1⟩, h2.1, ?_⟩
  · rw [h.2.1]
    rfl
  · rw [h2.2.1]
    rfl

/-! ## C7: update dispatch -/

/-- The transition-advancing half of `update` never changes `currentScene`. -/
lemma transitionPhase_currentScene (m : SceneManager) (now : ℚ) :
    (transitionPhase m now).1.currentScene = m.currentScene := by
  rcases hat : m.activeTransition with _ | tr
  · simp [transitionPhase, hat]
  · unfold transitionPhase
    rw [hat]
    rcases hf : (tr.update now).2.2 <;>
      · simp only [hf, Bool.false_eq_true, if_false, if_true]
        split <;> (try split) <;> (try split) <;> simp

/-- The transition-advancing half of `update` never emits an `onUpdate`. -/
lemma transitionPhase_no_onUpdate (m : SceneManager) (now : ℚ)
    (sid : SceneId) (d : ℚ) :
    Ev.onUpdate sid d ∉ (transitionPhase m now).2 := by
  rcases hat : m.activeTransition with _ | tr
  · simp [transitionPhase, hat]
  · unfold transitionPhase
    rw [hat]
    rcases hf : (tr.update now).2.2 <;>
      · simp only [hf, Bool.false_eq_true, if_false, if_true]
        split <;> (try split) <;> (try split) <;> simp

/-- C7: with a current scene, `update(dt)` invokes the current scene's
`onUpdate` with exactly the `dt` passed if and only if the scene's state is
`active` at dispatch time (after the transition-advancing step), and no
other scene or delta ever receives an `onUpdate`. -/
theorem update_dispatch_iff (m : SceneManager) (cur : SceneId) (dt now : ℚ)
    (h : m.currentScene = some cur) :
    (Ev.onUpdate cur dt ∈ (m.update (some dt) now).2 ↔
      sceneIsActive (transitionPhase { m with lastUpdateTime := now } now).1 cur
        = true) ∧
    (∀ sid d, Ev.onUpdate sid d ∈ (m.update (some dt) now).2 →
      sid = cur ∧ d = dt) := by
  have hcs : (transitionPhase { m with lastUpdateTime := now } now).1.currentScene
      = some cur := by
    rw [transitionPhase_currentScene]
    exact h
  have hno : ∀ sid d,
      Ev.onUpdate sid d ∉ (transitionPhase { m with lastUpdateTime := now } now).2 :=
    fun sid d => transitionPhase_no_onUpdate _ now sid d
  unfold SceneManager.update
  simp only [hcs, Option.getD_some]
  by_cases ha :
    sceneIsActive (transitionPhase { m with lastUpdateTime := now } now).1 cur = true
  · rw [if_pos ha]
    constructor
    · exact iff_of_true (List.mem_append_right _ (by simp)) ha
    · intro sid d hm
      rcases List.mem_append.mp hm with hm1 | hm2
      · exact absurd hm1 (hno sid d)
      · simp only [List.mem_singleton, Ev.onUpdate.injEq] at hm2
        exact hm2
  · rw [if_neg ha]
    constructor
    · exact iff_of_false (fun hm => (hno cur dt) hm) ha
    · intro sid d hm
      exact absurd hm (hno sid d)

/-- Witness for C7: the manager whose current scene "A" is active dispatches
`onUpdate` with the passed delta. -/
theorem update_dispatch_iff_witness :
    Ev.onUpdate 0 16 ∈ (exDirectMgr.update (some 16) 0).2 :=
  (update_dispatch_iff exDirectMgr 0 16 0 rfl).1.mpr (by decide)
